import Mathlib

/-!
Verification of the mcssh repository (src/mc.py and src/server.py) against its
natural-language specification.

Modelling conventions for the shallow embedding:
* Python strings are modelled as `List Char` (`Str` below), so that every
  operation reduces by kernel computation.
* Python machine state is passed explicitly: each method becomes a function
  from its state (and the external inputs it reads) to a new state together
  with its observable effects.
* Python exceptions are modelled by `Except PyErr`; a `.error` value marks a
  call that raises to its caller.
* `time.time()` is passed in as an explicit integer `now` parameter;
  the HTTP / websocket transports are passed in as explicit oracle arguments.
-/

namespace Mcssh

/-- Python strings, modelled as lists of characters. -/
abbrev Str := List Char

/-- Embed a Lean string literal as a `Str`. -/
def str (s : String) : Str := s.toList

/-- The Python exceptions that the modelled code can raise. -/
inductive PyErr where
  | indexError
  | attributeError
deriving DecidableEq

deriving instance DecidableEq for Except

/-! ## src/mc.py — MinecraftSocket (the console relay) -/

/-- A raw websocket message, represented by its parsed JSON record
(`json.loads` of the raw text).  `on_message` reads `timestampMillis`
unconditionally; the `level` and `message` fields may be absent (`none`),
in which case the corresponding Python dictionary access raises `KeyError`.
Equality of `RawMsg` stands for exact raw-content equality of the underlying
JSON text (distinct raw texts with equal parses are identified by the model;
every claim concerns re-ingestion of the very same raw text, where the
identification is harmless). -/
structure RawMsg where
  timestampMillis : Int
  level : Option Str
  text : Option Str
deriving DecidableEq

/-- The human-readable local-time rendering
`datetime.datetime.fromtimestamp(time / 1000).strftime(...)` used by
`format_message`.  Its exact text depends on the host timezone and is
irrelevant to every claim; the model renders the epoch seconds value. -/
def formatTimestamp (ts : Int) : Str := str (toString (ts / 1000))

/-- `MinecraftSocket.format_message` (mc.py lines 106-110):
`f"{time_formatted} {message['level']} : {message['message']}"`.
A missing `level` or `message` field raises `KeyError`, which the caller's
`try`/`except` turns into a drop; the model returns `none` there. -/
def format_message (m : RawMsg) : Option Str :=
  match m.level, m.text with
  | some l, some t =>
      some (formatTimestamp m.timestampMillis ++ str " " ++ l ++ str " : " ++ t)
  | _, _ => none

/-- Helper for the command-echo regular expression `^\/([^\s]+):` of mc.py
line 154: searching downward from `n`, find the longest nonempty prefix of
`s` that consists of non-whitespace characters and is immediately followed
by a colon (Python's greedy `[^\s]+` with backtracking). -/
def echoCaptureAux (s : Str) : Nat → Option Str
  | 0 => none
  | i + 1 =>
      if (s.take (i + 1)).all (fun c => !c.isWhitespace) && (s.get? (i + 1) == some ':') then
        some (s.take (i + 1))
      else
        echoCaptureAux s i

/-- The capture group of `re.match(r"^\/([^\s]+):", text)` (mc.py lines
154-157): the command name echoed by the server, if the text matches. -/
def commandOfEcho (t : Str) : Option Str :=
  match t with
  | '/' :: rest => echoCaptureAux rest rest.length
  | _ => none

/-- The relay-global mutable state of `MinecraftSocket` touched by
`on_message`: the timestamp high-water mark `latest_message`, the
deduplicated raw-message store `KNOWN_MESSAGES` and the learned command
set `KNOWN_COMMANDS`. -/
structure RelayState where
  latest_message : Int
  known_messages : List RawMsg
  known_commands : List Str
deriving DecidableEq

/-- The command-learning step of `on_message` (mc.py lines 150-162): if the
message text matches the command-echo pattern and the captured name is new,
append it to `KNOWN_COMMANDS` (and persist, an effect not otherwise
observable to the claims). -/
def learnCommand (st : RelayState) (t : Str) : RelayState :=
  match commandOfEcho t with
  | some c =>
      if c ∈ st.known_commands then st
      else { st with known_commands := st.known_commands ++ [c] }
  | none => st

/-- `MinecraftSocket.on_message` (mc.py lines 129-181), up to the fan-out
loop.  Returns the new relay state together with the formatted line handed
to the fan-out loop — `none` when nothing is dispatched to subscribers
(stale drop, duplicate drop, `KeyError` on the missing `message` field at
the regex line, or formatting failure).  The fan-out loop itself is
modelled separately by `dispatchEager`/`dispatchDeferred` below, because
its behaviour depends on how the spawned threads are scheduled. -/
def on_message (st : RelayState) (msg : RawMsg) : RelayState × Option Str :=
  if msg.timestampMillis < st.latest_message then (st, none)
  else if msg ∈ st.known_messages then (st, none)
  else
    let st1 : RelayState :=
      { st with known_messages := st.known_messages ++ [msg],
                latest_message := msg.timestampMillis }
    match msg.text with
    | none => (st1, none)
    | some t =>
        let st2 := learnCommand st1 t
        match format_message msg with
        | none => (st2, none)
        | some f => (st2, some f)

/-- One admissible schedule of the fan-out loop of `on_message` (mc.py lines
170-181): each spawned `wrapper` thread runs to completion before the `for`
loop advances, so each thread still sees its own value of the loop variable
`callback`.  Python's list iterator keeps a position index into the *live*
list, so when the wrapper of a raising subscriber executes
`self.callbacks.remove(callback)` the element after the removed one shifts
into the already-visited position and is skipped.  Subscribers are
identified by `Nat` ids, `fails s = true` means the render hook of `s`
raises.  Arguments: the fuel (see `dispatchEager`), the live registry, the
iterator position, and the accumulated list of subscribers that received
the message.  Returns the final registry and the delivery list. -/
def dispatchEagerAux (fails : Nat → Bool) :
    Nat → List Nat → Nat → List Nat → List Nat × List Nat
  | 0, l, _, delivered => (l, delivered)
  | fuel + 1, l, idx, delivered =>
      if h : idx < l.length then
        let c := l.get ⟨idx, h⟩
        if fails c then dispatchEagerAux fails fuel (l.erase c) (idx + 1) delivered
        else dispatchEagerAux fails fuel l (idx + 1) (delivered ++ [c])
      else (l, delivered)

/-- The eager schedule of the fan-out loop, started at iterator position 0.
The fuel `l.length` bounds the loop: the iterator index rises by one per
iteration and the registry never grows, so at most `l.length` iterations
occur. -/
def dispatchEager (fails : Nat → Bool) (l : List Nat) : List Nat × List Nat :=
  dispatchEagerAux fails l.length l 0 []

/-- The other natural schedule of the same fan-out loop: all spawned threads
run only after the `for` loop has finished (the typical CPython outcome,
since the spawning thread holds the interpreter lock for the whole loop).
Every `wrapper` closure then reads the final value of the late-bound loop
variable `callback`, i.e. the last element of the registry.  If that
subscriber's hook raises, the first thread removes it and every later
thread dies on the `ValueError` raised by `remove` inside the `except`
block; if it succeeds, every thread delivers to it once. -/
def dispatchDeferred (fails : Nat → Bool) (l : List Nat) : List Nat × List Nat :=
  match l.getLast? with
  | none => (l, [])
  | some c =>
      if fails c then (l.erase c, [])
      else (l, List.replicate l.length c)

/-- The mutable state of `MinecraftSocket.get_online_players` (mc.py lines
79-100): the cached roster `_players` (declared but never initialised, so
reading it before the first successful refresh raises `AttributeError`,
modelled by `none`) and the last refresh attempt time. -/
structure RosterState where
  players : Option (List Str)
  players_last_updated : Int
deriving DecidableEq

/-- `MinecraftSocket.get_online_players` (mc.py lines 79-100).  `now` is
`time.time()` at integer granularity; `query` is the outcome of the external
`requests.get` call (`.error` = any `requests.exceptions.RequestException`,
`.ok` = the decoded JSON player list).  Returns the list handed back to the
caller together with the new state, or the exception the call raises. -/
def get_online_players (st : RosterState) (now : Int)
    (query : Except Unit (List Str)) : Except PyErr (List Str × RosterState) :=
  if now - st.players_last_updated < 10 then
    match st.players with
    | some ps => .ok (ps, st)
    | none => .error .attributeError
  else
    let st1 : RosterState := { st with players_last_updated := now }
    match query with
    | .error _ => .ok ([], st1)
    | .ok ps => .ok (ps, { st1 with players := some ps })

/-! ## src/server.py — SSHServer (the per-session line editor)

Where a method is defined twice in the class body (the source duplicates a
block of the class), the model follows the *second* definition, which is the
one Python keeps. -/

/-- Python `str.strip()`: drop leading and trailing whitespace. -/
def pyStrip (s : Str) : Str :=
  ((s.dropWhile Char.isWhitespace).reverse.dropWhile Char.isWhitespace).reverse

/-- Python `str.removeprefix('/')`: drop one leading slash if present. -/
def pyRemoveSlash (s : Str) : Str :=
  match s with
  | '/' :: rest => rest
  | _ => s

/-- Normalise a Python list index: a negative index counts from the end. -/
def pyNormIdx (n : Nat) (i : Int) : Int := if i < 0 then i + n else i

/-- Python `list.pop(i)`: remove and discard the element at (possibly
negative) index `i`; out-of-range indices raise `IndexError`. -/
def pyPop (l : List α) (i : Int) : Except PyErr (List α) :=
  let j := pyNormIdx l.length i
  if 0 ≤ j ∧ j < l.length then .ok (l.eraseIdx j.toNat) else .error .indexError

/-- The buffer/cursor fragment of the session state.  `position` is an `Int`
because the source can drive it below zero (see `backspace`). -/
structure EditState where
  buffer : Str
  position : Int
deriving DecidableEq

/-- `SSHServer.backspace` (server.py lines 510-513):
`if len(self.buffer) > 0: self.buffer.pop(self.position - 1); self.position -= 1`. -/
def backspace (st : EditState) : Except PyErr EditState :=
  if st.buffer.length > 0 then
    match pyPop st.buffer (st.position - 1) with
    | .ok buf => .ok { buffer := buf, position := st.position - 1 }
    | .error e => .error e
  else .ok st

/-- `SSHServer.is_command_complete` (server.py lines 367-369):
`self.buffer_str.strip().removeprefix('/') in self.ws.known_commands`. -/
def is_command_complete (known_commands : List Str) (buf : Str) : Bool :=
  (pyRemoveSlash (pyStrip buf)) ∈ known_commands

/-- `SSHServer.player_suggestions` (second definition, server.py lines
321-334).  `players` is `self.ws.players`, `known_commands` is
`self.ws.known_commands`, `filt` is `self.filter` and `buf` is
`self.buffer_str`.  `filt.splitOn ' '` matches Python `split(" ")`
(both return one empty word for the empty string). -/
def player_suggestions (players known_commands : List Str) (filt buf : Str) :
    List Str :=
  let words := filt.splitOn ' '
  if filt.length = 0 ∨ (words.headD []).length = 0 then []
  else if words.length = 1 ∧ is_command_complete known_commands buf then players
  else
    (players.filter (fun p => (words.getLastD []).isPrefixOf p)).map
      (fun p => buf ++ p.drop (words.getLastD []).length)

/-- The adjacent-duplicate collapse of `filtered_history` (server.py line
486): keep `filtered[i]` iff `i == 0` or `filtered[i] != filtered[i-1]`.
`prev` is the element at position `i-1` of the original list. -/
def dedupAdjAux (prev : Str) : List Str → List Str
  | [] => []
  | y :: ys => if y = prev then dedupAdjAux y ys else y :: dedupAdjAux y ys

/-- Adjacent-duplicate collapse of a whole list (server.py line 486). -/
def dedupAdj : List Str → List Str
  | [] => []
  | x :: xs => x :: dedupAdjAux x xs

/-- `SSHServer.filtered_history` (server.py lines 481-486): filter the
concatenation (player suggestions, history, known commands) by the
`startswith(filter)` test, prepend the bare filter, collapse adjacent
duplicates. -/
def filtered_history (ps hist kc : List Str) (filt : Str) : List Str :=
  filt :: dedupAdj ((ps ++ hist ++ kc).filter (fun cmd => filt.isPrefixOf cmd))

/-- `SSHServer.suffix_selection` (second, effective definition, server.py
lines 346-354).  `fh` is the value of `self.filtered_history`; the property
both reads and may reset `self.selected_suffix`, so the new index is
returned alongside the value.  Note the source clamps the index against
`len(self.filtered_history)` but indexes `self.filtered_history[1:]`. -/
def suffix_selection (fh : List Str) (selected_suffix : Nat) :
    Except PyErr (Str × Nat) :=
  if fh.tail.length = 0 then .ok ([], selected_suffix)
  else
    let sel := if fh.length ≤ selected_suffix then 0 else selected_suffix
    match fh.tail.get? sel with
    | some s => .ok (s, sel)
    | none => .error .indexError

/-- The non-empty-filter branch of `SSHServer.previous_command` (server.py
line 494): `self.selected_suffix = min(len(self.filtered_history) - 1,
self.selected_suffix + 1)`.  (The empty-filter branch touches only the
history selection index and the buffer and is not needed by the claims.) -/
def previous_command_suffix (fh : List Str) (selected_suffix : Nat) : Nat :=
  min (fh.length - 1) (selected_suffix + 1)

/-- `SSHServer.add_history` (second, effective definition, server.py lines
306-312), restricted to its effect on the in-memory list: insert at the
front unless `len(history) == 1` is false and `history[1]` equals the
command.  (`history[1]` on a history of length 0 would raise `IndexError`;
the method also always rewrites history.txt, an effect recorded by the
caller.) -/
def add_history (hist : List Str) (cmd : Str) : Except PyErr (List Str) :=
  if hist.length = 1 then .ok (cmd :: hist)
  else
    match hist.get? 1 with
    | some h1 => if h1 = cmd then .ok hist else .ok (cmd :: hist)
    | none => .error .indexError

/-- The session state read and written by `SSHServer.send_command`.
(The completion filter is untouched by `send_command` itself —
`update_filter` is a separate step of the input loop — and is therefore
not part of this record.) -/
structure SessionState where
  buffer : Str
  position : Int
  selected : Nat
  selected_suffix : Nat
  history : List Str
deriving DecidableEq

/-- The externally observable effects of one `send_command` call:
the payloads passed to `self.ws.send`, the escape sequences passed to
`send_to_client`, whether log.txt was truncated, whether history.txt was
rewritten (by `add_history`), whether the service-restart `Popen` was
issued, and whether the session was closed and the handler exited. -/
structure SendEffects where
  sent : List Str
  clientWrites : List Str
  logTruncated : Bool
  historySaved : Bool
  restarted : Bool
  sessionClosed : Bool
deriving DecidableEq

/-- The effects of a `send_command` call that does nothing. -/
def noEffects : SendEffects :=
  { sent := [], clientWrites := [], logTruncated := false,
    historySaved := false, restarted := false, sessionClosed := false }

/-- The `elif` dispatch chain of `send_command` (server.py lines 448-471)
for a buffer `buf1` that is not `exit`, as (client writes of the branch,
ws.send payloads, log truncated, restart issued).  The broadcast branch
evaluates `"".join(self.buffer).strip()[0]`, which raises `IndexError`
when the buffer is entirely whitespace. -/
def send_dispatch (buf1 : Str) :
    Except PyErr (List Str × List Str × Bool × Bool) :=
  if buf1 = str "clear" ∨ buf1 = str "cls" then
    .ok ([str "\x1b[2J"], [], true, false)
  else if buf1 = str "reset" then
    .ok ([], [], false, true)
  else
    match (pyStrip buf1).head? with
    | none => .error .indexError
    | some c =>
        if c = '!' then .ok ([], [str "/broadcast " ++ buf1.drop 1], false, false)
        else .ok ([], [buf1], false, false)

/-- `SSHServer.send_command` (server.py lines 436-479).  Empty buffer:
immediate return.  Otherwise: `add_history` on the joined buffer; if the
buffer is exactly `reload` it is reassigned to `reload confirm` — and the
subsequent `if`/`elif` chain then runs on the *reassigned* buffer, so the
final `else` forwards `reload confirm` via `ws.send`.  The `exit` branch
closes the session and calls `exit(0)`, so the trailing resets never run;
every other branch falls through to the unconditional reset of buffer,
position and both selection indices and the final line-clear write. -/
def send_command (st : SessionState) : Except PyErr (SessionState × SendEffects) :=
  if st.buffer.length = 0 then .ok (st, noEffects)
  else
    match add_history st.history st.buffer with
    | .error e => .error e
    | .ok hist1 =>
        let buf1 := if st.buffer = str "reload" then str "reload confirm" else st.buffer
        if buf1 = str "exit" then
          .ok ({ st with buffer := buf1, history := hist1 },
               { noEffects with historySaved := true, sessionClosed := true })
        else
          match send_dispatch buf1 with
          | .error e => .error e
          | .ok (writes, sends, trunc, rst) =>
              .ok ({ st with buffer := [], position := 0, selected := 0,
                             selected_suffix := 0, history := hist1 },
                   { sent := sends, clientWrites := writes ++ [str "\x1b[2K"],
                     logTruncated := trunc, historySaved := true,
                     restarted := rst, sessionClosed := false })

/-! ## Concrete states used by witnesses and counterexamples -/

/-- A well-formed console message with timestamp 100. -/
def msgA : RawMsg :=
  { timestampMillis := 100, level := some (str "INFO"), text := some (str "hello") }

/-- A well-formed console message with timestamp 50. -/
def msgStale : RawMsg :=
  { timestampMillis := 50, level := some (str "INFO"), text := some (str "old") }

/-- The initial relay state (empty store, high-water mark 0). -/
def relay0 : RelayState :=
  { latest_message := 0, known_messages := [], known_commands := [] }

/-- The relay state after accepting `msgA`. -/
def relay1 : RelayState :=
  { latest_message := 100, known_messages := [msgA], known_commands := [] }

/-- A session whose buffer holds exactly `reload`, with the initial
history `[""]`. -/
def reloadState : SessionState :=
  { buffer := str "reload", position := 6, selected := 0, selected_suffix := 0,
    history := [[]] }

/-- A session with an empty buffer and the initial history `[""]`. -/
def emptySubmitState : SessionState :=
  { buffer := [], position := 0, selected := 0, selected_suffix := 0,
    history := [[]] }

/-- A roster state holding a previously fetched roster `["Alice"]`, last
refreshed at time 0. -/
def c5CachedState : RosterState :=
  { players := some [str "Alice"], players_last_updated := 0 }

/-- The candidate list of a session whose filter and buffer are `"s"`, with
no online players, initial history `[""]` and known commands `["say"]`:
it computes to `["s", "say"]`. -/
def c9fh : List Str :=
  filtered_history (player_suggestions [] [str "say"] (str "s") (str "s"))
    [[]] [str "say"] (str "s")

/-! ## Helper lemmas -/

/-- `learnCommand` only touches the known-command set. -/
lemma learnCommand_preserves (st : RelayState) (t : Str) :
    (learnCommand st t).known_messages = st.known_messages ∧
    (learnCommand st t).latest_message = st.latest_message := by
  unfold learnCommand
  cases commandOfEcho t with
  | none => exact ⟨rfl, rfl⟩
  | some c => by_cases h : c ∈ st.known_commands <;> simp [h]

/-- A raw message already in the store is dropped: the state is unchanged
and nothing is handed to the fan-out loop. -/
lemma on_message_of_mem (st : RelayState) (msg : RawMsg)
    (hmem : msg ∈ st.known_messages) : on_message st msg = (st, none) := by
  unfold on_message
  by_cases hts : msg.timestampMillis < st.latest_message
  · rw [if_pos hts]
  · rw [if_neg hts, if_pos hmem]

/-- A message passing both the staleness and the duplicate guard is
appended to the store and its timestamp becomes the high-water mark,
whatever the learning / formatting paths do. -/
lemma on_message_accepted (st : RelayState) (msg : RawMsg)
    (hts : ¬ msg.timestampMillis < st.latest_message)
    (hmem : msg ∉ st.known_messages) :
    (on_message st msg).1.known_messages = st.known_messages ++ [msg] ∧
    (on_message st msg).1.latest_message = msg.timestampMillis := by
  unfold on_message
  rw [if_neg hts, if_neg hmem]
  dsimp only
  cases htext : msg.text with
  | none => exact ⟨rfl, rfl⟩
  | some t =>
    cases hfmt : format_message msg with
    | none =>
      dsimp only
      exact ⟨(learnCommand_preserves _ _).1, (learnCommand_preserves _ _).2⟩
    | some f =>
      dsimp only
      exact ⟨(learnCommand_preserves _ _).1, (learnCommand_preserves _ _).2⟩

/-- Every element kept by the adjacent-duplicate collapse comes from the
original list. -/
lemma dedupAdjAux_subset (l : List Str) : ∀ prev c, c ∈ dedupAdjAux prev l → c ∈ l := by
  induction l with
  | nil => intro prev c h; simp [dedupAdjAux] at h
  | cons y ys ih =>
    intro prev c h
    by_cases hy : y = prev
    · rw [dedupAdjAux, if_pos hy] at h
      exact List.mem_cons_of_mem _ (ih y c h)
    · rw [dedupAdjAux, if_neg hy] at h
      rcases List.mem_cons.mp h with h1 | h1
      · exact h1 ▸ List.mem_cons_self _ _
      · exact List.mem_cons_of_mem _ (ih y c h1)

/-- `dedupAdj` returns a sublist of its input, element-wise. -/
lemma dedupAdj_subset (l : List Str) : ∀ c, c ∈ dedupAdj l → c ∈ l := by
  cases l with
  | nil => intro c h; simp [dedupAdj] at h
  | cons x xs =>
    intro c h
    rw [dedupAdj] at h
    rcases List.mem_cons.mp h with h1 | h1
    · exact h1 ▸ List.mem_cons_self _ _
    · exact List.mem_cons_of_mem _ (dedupAdjAux_subset xs x c h1)

/-- The adjacent-duplicate collapse yields a list with no two equal
neighbours, and its head differs from the carried previous element. -/
lemma dedupAdjAux_chain (l : List Str) : ∀ prev,
    List.Chain' (fun a b => a ≠ b) (dedupAdjAux prev l) ∧
    ∀ c, (dedupAdjAux prev l).head? = some c → c ≠ prev := by
  induction l with
  | nil =>
    intro prev
    constructor
    · simp [dedupAdjAux]
    · intro c h; simp [dedupAdjAux] at h
  | cons y ys ih =>
    intro prev
    by_cases hy : y = prev
    · rw [dedupAdjAux, if_pos hy]
      subst hy
      exact ih y
    · rw [dedupAdjAux, if_neg hy]
      constructor
      · rw [List.chain'_cons']
        refine ⟨fun b hb => ?_, (ih y).1⟩
        exact Ne.symm ((ih y).2 b (Option.mem_def.mp hb))
      · intro c h
        rw [List.head?] at h
        injection h with h
        exact h ▸ hy

/-! ## The claims -/

/-- Claim C1, as stated, is false: submitting a buffer that is exactly
`reload` does NOT merely rewrite the buffer in place.  The `if` that
reassigns the buffer to `reload confirm` is not an `elif` of the dispatch
chain, so the chain then runs on the reassigned buffer and its final `else`
forwards `reload confirm` through `ws.send`; afterwards the unconditional
reset clears the buffer.  Concretely, from `reloadState` the call sends
`["reload confirm"]` upstream and leaves an empty buffer — not no send and
a `reload confirm` buffer as the claim predicts. -/
theorem c1_reload_counterexample :
    ((send_command reloadState).toOption.map (fun p => (p.2.sent, p.1.buffer)))
      = some ([str "reload confirm"], ([] : Str)) ∧
    ¬ ((send_command reloadState).toOption.map (fun p => (p.2.sent, p.1.buffer)))
      = some (([] : List Str), str "reload confirm") := by decide

/-- Claim C1, amended: when `send_command` is invoked with buffer content
exactly `reload`, the buffer is first rewritten to `reload confirm` and that
rewritten command is then forwarded upstream by `ws.send` during the same
submit; the buffer, cursor and both selection indices are then reset as on
any other dispatch (assuming `add_history` does not raise, i.e. the history
list is nonempty as the source guarantees). -/
theorem c1_reload_amended (st : SessionState) (hist1 : List Str)
    (hb : st.buffer = str "reload")
    (hh : add_history st.history (str "reload") = .ok hist1) :
    send_command st
      = .ok ({ st with buffer := [], position := 0, selected := 0,
                       selected_suffix := 0, history := hist1 },
             { sent := [str "reload confirm"], clientWrites := [str "\x1b[2K"],
               logTruncated := false, historySaved := true, restarted := false,
               sessionClosed := false }) := by
  unfold send_command
  rw [hb, hh]
  rw [if_neg (by decide : ¬ (str "reload").length = 0)]
  rw [if_pos (rfl : str "reload" = str "reload")]
  dsimp only
  rw [if_neg (by decide : ¬ str "reload confirm" = str "exit")]
  rw [show send_dispatch (str "reload confirm")
        = .ok ([], [str "reload confirm"], false, false) from by decide]
  rfl

/-- Witness for `c1_reload_amended` at the concrete state `reloadState`. -/
theorem c1_reload_amended_witness :
    send_command reloadState
      = .ok ({ buffer := [], position := 0, selected := 0, selected_suffix := 0,
               history := [str "reload", []] },
             { sent := [str "reload confirm"], clientWrites := [str "\x1b[2K"],
               logTruncated := false, historySaved := true, restarted := false,
               sessionClosed := false }) :=
  c1_reload_amended reloadState [str "reload", []] rfl (by decide)

/-- Claim C2: ingestion is idempotent on raw messages.  A raw message
already present in the store leaves the whole relay state unchanged (and
dispatches nothing), and ingesting a fresh, accepted raw message twice
stores it exactly once. -/
theorem c2_ingest_idempotent (st : RelayState) (msg : RawMsg) :
    (msg ∈ st.known_messages → on_message st msg = (st, none)) ∧
    (¬ msg.timestampMillis < st.latest_message → msg ∉ st.known_messages →
      (on_message (on_message st msg).1 msg).1.known_messages.count msg = 1) := by
  constructor
  · exact on_message_of_mem st msg
  · intro hts hmem
    have h1 := on_message_accepted st msg hts hmem
    have hm1 : msg ∈ (on_message st msg).1.known_messages := by
      rw [h1.1]; exact List.mem_append_right _ (List.mem_singleton_self _)
    rw [on_message_of_mem _ _ hm1, h1.1, List.count_append,
        List.count_eq_zero.mpr hmem]
    simp

/-- Witness for `c2_ingest_idempotent`: re-ingesting `msgA` into `relay1`
(which already stores it) is a no-op, and ingesting `msgA` twice into the
empty relay stores it exactly once. -/
theorem c2_ingest_idempotent_witness :
    on_message relay1 msgA = (relay1, none) ∧
    (on_message (on_message relay0 msgA).1 msgA).1.known_messages.count msgA = 1 :=
  ⟨(c2_ingest_idempotent relay1 msgA).1 (by decide),
   (c2_ingest_idempotent relay0 msgA).2 (by decide) (by decide)⟩

/-- Claim C3: a message whose timestamp is strictly below the high-water
mark is dropped whole — the relay state is unchanged and nothing is handed
to the fan-out loop (the second component `none` means the subscriber loop
is never entered, so nothing is delivered under any schedule); and every
accepted message's timestamp becomes the new high-water mark. -/
theorem c3_stale_never_delivered (st : RelayState) (msg : RawMsg) :
    (msg.timestampMillis < st.latest_message → on_message st msg = (st, none)) ∧
    (¬ msg.timestampMillis < st.latest_message → msg ∉ st.known_messages →
      (on_message st msg).1.latest_message = msg.timestampMillis) := by
  constructor
  · intro hts
    unfold on_message
    rw [if_pos hts]
  · intro hts hmem
    exact (on_message_accepted st msg hts hmem).2

/-- Witness for `c3_stale_never_delivered`: `msgStale` (timestamp 50) is
dropped by `relay1` (high-water mark 100), and accepting `msgA` into the
empty relay raises the high-water mark to 100. -/
theorem c3_stale_never_delivered_witness :
    on_message relay1 msgStale = (relay1, none) ∧
    (on_message relay0 msgA).1.latest_message = 100 :=
  ⟨(c3_stale_never_delivered relay1 msgStale).1 (by decide),
   (c3_stale_never_delivered relay0 msgA).2 (by decide) (by decide)⟩

/-- Claim C4 fails on the code: fan-out is NOT isolating under either
natural schedule of the spawned per-subscriber threads.  With subscribers
`[0, 1, 2]` where only subscriber 0's hook raises: under the eager schedule
(`dispatchEager`), removing 0 from the list being iterated shifts the
remaining elements, so the loop skips subscriber 1 — only `[2]` receives
the message although both 1 and 2 stay registered.  Under the deferred
schedule (`dispatchDeferred`, the typical CPython outcome), every thread
reads the late-bound loop variable's final value: with `[0, 1]` the failing
subscriber 0 is never invoked and never removed, while subscriber 1
receives the message twice. -/
theorem c4_fanout_schedule_eval :
    dispatchEager (fun n => n == 0) [0, 1, 2] = ([1, 2], [2]) ∧
    ¬ (1 : Nat) ∈ (dispatchEager (fun n => n == 0) [0, 1, 2]).2 ∧
    dispatchDeferred (fun n => n == 0) [0, 1] = ([0, 1], [1, 1]) ∧
    (0 : Nat) ∈ (dispatchDeferred (fun n => n == 0) [0, 1]).1 := by decide

/-- Claim C5, as stated, is false: when the external roster query fails,
`get_online_players` returns the empty list, not the previously cached
roster.  From `c5CachedState` (cached roster `["Alice"]`, stale by 10
seconds) a failing refresh returns `[]`, not `["Alice"]`. -/
theorem c5_roster_counterexample :
    ((get_online_players c5CachedState 10 (.error ())).toOption.map Prod.fst)
      = some ([] : List Str) ∧
    ¬ ((get_online_players c5CachedState 10 (.error ())).toOption.map Prod.fst)
      = some [str "Alice"] := by decide

/-- Claim C5, amended: when the cache is stale and the external query fails
with a transport error, the call logs the error, returns the EMPTY list for
that call, does not raise, and leaves the previously cached roster field in
place (only the refresh time advances) — so a later fresh-cache call can
still serve the old roster. -/
theorem c5_roster_amended (st : RosterState) (now : Int)
    (h : ¬ now - st.players_last_updated < 10) :
    get_online_players st now (.error ())
      = .ok ([], { st with players_last_updated := now }) := by
  unfold get_online_players
  rw [if_neg h]

/-- Witness for `c5_roster_amended` at the concrete state `c5CachedState`. -/
theorem c5_roster_amended_witness :
    get_online_players c5CachedState 10 (.error ())
      = .ok ([], { players := some [str "Alice"], players_last_updated := 10 }) :=
  c5_roster_amended c5CachedState 10 (by decide)

/-- Claim C6 is right and the code is wrong: `backspace` from the valid
state (buffer `"ab"`, cursor 0) pops `buffer[-1]` — Python's negative
indexing silently removes the LAST character — and drives the cursor to
−1, outside `[0, len(buffer)]`; the claimed in-range/no-op behaviour
(second conjunct) does not hold. -/
theorem c6_backspace_eval :
    backspace { buffer := str "ab", position := 0 }
      = .ok { buffer := str "a", position := -1 } ∧
    ¬ backspace { buffer := str "ab", position := 0 }
      = .ok { buffer := str "ab", position := 0 } := by decide

/-- Claim C7: for every filter, `filtered_history` starts with the bare
filter, its remaining candidates are drawn from the concatenation (player
suggestions, history, known commands) restricted to entries starting with
the filter, and no two adjacent candidates are equal; in particular every
candidate after the first entry starts with the filter (for the empty
filter the prefix condition is vacuous, so this covers the non-empty case
of the claim). -/
theorem c7_filtered_history (ps hist kc : List Str) (filt : Str) :
    (filtered_history ps hist kc filt).head? = some filt ∧
    List.Chain' (fun a b => a ≠ b) (filtered_history ps hist kc filt).tail ∧
    ∀ c ∈ (filtered_history ps hist kc filt).tail,
      c ∈ ps ++ hist ++ kc ∧ filt.isPrefixOf c = true := by
  refine ⟨rfl, ?_, ?_⟩
  · show List.Chain' _
      (dedupAdj ((ps ++ hist ++ kc).filter (fun cmd => filt.isPrefixOf cmd)))
    cases hf : (ps ++ hist ++ kc).filter (fun cmd => filt.isPrefixOf cmd) with
    | nil => simp [dedupAdj]
    | cons x xs =>
      rw [dedupAdj, List.chain'_cons']
      refine ⟨fun b hb => ?_, (dedupAdjAux_chain xs x).1⟩
      exact Ne.symm ((dedupAdjAux_chain xs x).2 b (Option.mem_def.mp hb))
  · intro c hc
    have hc' : c ∈ (ps ++ hist ++ kc).filter (fun cmd => filt.isPrefixOf cmd) :=
      dedupAdj_subset _ c hc
    have h2 := List.mem_filter.mp hc'
    exact ⟨h2.1, h2.2⟩

/-- Witness for `c7_filtered_history` with filter `"s"`, history `["say"]`
and no player suggestions or known commands: the candidate list heads with
`"s"` and the candidate `"say"` comes from the concatenation and starts
with the filter. -/
theorem c7_filtered_history_witness :
    (filtered_history [] [str "say"] [] (str "s")).head? = some (str "s") ∧
    (str "s").isPrefixOf (str "say") = true ∧
    (str "say") ∈ (([] : List Str) ++ [str "say"] ++ []) := by
  have h := c7_filtered_history [] [str "say"] [] (str "s")
  have hm := h.2.2 (str "say") (by decide)
  exact ⟨h.1, hm.2, hm.1⟩

/-- Claim C8, as stated, is false: the duplicate check of `add_history`
reads `history[1]`, but `insert(0, cmd)` places the most recent command at
`history[0]`.  From the state `["a", ""]` (most recent entry `"a"`),
re-adding `"a"` compares it against `history[1] = ""` and re-inserts it,
yielding `["a", "a", ""]` rather than the unchanged list the claim
predicts. -/
theorem c8_history_counterexample :
    add_history [str "a", []] (str "a") = .ok [str "a", str "a", []] ∧
    ¬ add_history [str "a", []] (str "a") = .ok [str "a", []] := by decide

/-- Claim C8, amended: `add_history` inserts the command at the front
unless the history has a second entry (`history[1]`, the second-most-recent
after the insertions performed by this method) equal to the command; the
suppression is against that second entry, not against the current
most-recent entry, so immediately repeated commands ARE re-inserted. -/
theorem c8_history_amended (hist : List Str) (cmd h1 : Str)
    (hh : hist.get? 1 = some h1) :
    add_history hist cmd = .ok (if h1 = cmd then hist else cmd :: hist) := by
  have hlen : 1 < hist.length := by
    rcases List.get?_eq_some.mp hh with ⟨hl, _⟩
    exact hl
  have hne : ¬ hist.length = 1 := by omega
  unfold add_history
  rw [if_neg hne, hh]
  dsimp only
  by_cases hc : h1 = cmd
  · rw [if_pos hc, if_pos hc]
  · rw [if_neg hc, if_neg hc]

/-- Witness for `c8_history_amended`: adding `"c"` to `["a", "b"]` inserts
at the front because the second entry `"b"` differs from `"c"`. -/
theorem c8_history_amended_witness :
    add_history [str "a", str "b"] (str "c") = .ok [str "c", str "a", str "b"] := by
  have h := c8_history_amended [str "a", str "b"] (str "c") (str "b") (by decide)
  rw [if_neg (by decide : ¬ str "b" = str "c")] at h
  exact h

/-- Claim C9 is right about the intent and the code is wrong: the effective
`suffix_selection` clamps the index against `len(filtered_history)` but
indexes `filtered_history[1:]`, which is one shorter — while
`previous_command` caps the index at exactly `len(filtered_history) - 1`.
With candidate list `c9fh = ["s", "say"]` one up-arrow press sets the
index to 1 and the accessor then indexes `["say"][1]`, raising
`IndexError` instead of never indexing out of bounds. -/
theorem c9_suffix_selection_eval :
    c9fh = [str "s", str "say"] ∧
    previous_command_suffix c9fh 0 = 1 ∧
    suffix_selection c9fh (previous_command_suffix c9fh 0) = .error .indexError := by
  decide

/-- Claim C10: submitting with an empty buffer is a complete no-op —
`send_command` returns at once with the state unchanged and no effects
(nothing sent upstream, no history append or save, no client or durable-log
write, no truncation, no restart, no close). -/
theorem c10_empty_submit (st : SessionState) (h : st.buffer = []) :
    send_command st = .ok (st, noEffects) := by
  unfold send_command
  rw [h]
  rfl

/-- Witness for `c10_empty_submit` at the concrete state `emptySubmitState`. -/
theorem c10_empty_submit_witness :
    send_command emptySubmitState = .ok (emptySubmitState, noEffects) :=
  c10_empty_submit emptySubmitState rfl

end Mcssh
